import Mathlib

/-!
Verification development for the system-image OTA update client.

The Python sources embedded here are `resolver/gpg.py` (trust context and
public-key fetching) and the behavior pinned by the test suites
`systemimage/tests/test_helpers.py` and `systemimage/tests/test_api.py`.
Components whose implementation modules are not present in the source tree
(`systemimage/helpers.py`, `systemimage/api.py`, the resolver/state machine)
are modelled from the specification, as marked on each definition.

Machine integers are embedded as `Nat` with explicit reduction modulo
`2^32` / `2^64` wherever the original arithmetic wraps.
-/

namespace SystemImage

/-- Modulus for 32-bit wrap-around arithmetic. -/
def M32N : Nat := 4294967296

/-- Modulus for 64-bit wrap-around arithmetic. -/
def M64N : Nat := 18446744073709551616

/-- Right rotation of a 64-bit word. -/
def rotr64 (x n : Nat) : Nat := ((x >>> n) ||| (x <<< (64 - n))) % M64N

/-- Read 64-bit word `i` of a packed word vector. -/
def getW64 (s i : Nat) : Nat := (s >>> (64 * i)) % M64N

/-- The 80 round constants of SHA-512 (FIPS 180-4), packed 64 bits per
word into one natural number, word `i` at bits `64*i ..`. -/
def shaKpacked : Nat := 79401733742453553460850974233500163835348862130151944941868585954107921729851966433709504484594679435920217403432902140994683155589145428503332143350099233675287629342148958156760608048718624254807234857957852455754214058884921634611326080205028019932017299108412944066748695243938538222011871193474315677411354832238878879580026905713004175351116394147631691291051896265977658407765544729563264081113624712905526199824849243202590140303189688134116128494335089560005513154509089550000761255799866325224245302341002348938473127098360843277708398217491814982223042684701014439043985348647627260823478770080292761916386342786932479083740835907016162305032857537046140546558784246985852552655451305556579902388712433715435365355118487175420852053958416930158193676921281365595997321839184966351001269990065517904640083352893266395342353390165452080100972549846464999139078654794207765074847081235236169199660995854142221606170754579040654251887857292569044177719716794421818060776737044033093531714540655966802073377033638767129476236253099442454114897544131384012900311640737753004131001050775512054237450756896889568333869892075607669344033195862547426252590686148624074116392191708788571081612071343428420806936287685748480654347806239090915076728239100344933911375104624615916807971556351801760876948354563175513568373209404554063007387465388995308446212666495189366480319809197885878244498379497550728853899917860378912106109910455014168049971294187227495270703061017345423922759262219819475714723322081387967974931234460660416134255259170

/-- Round constants of SHA-512 as a list. -/
def shaK : List Nat := (List.range 80).map (getW64 shaKpacked)

/-- The initial hash state of SHA-512 (FIPS 180-4), packed 64 bits per
word into one natural number. -/
def shaH0packed : Nat := 4812048101252663290612834066995531158742713419846591145376350182667999366794400516985448940192745739731038893726247251609359409289363687649257956495378696

/-- Initial hash state of SHA-512 as a list. -/
def shaH0 : List Nat := (List.range 8).map (getW64 shaH0packed)

/-- Big-endian byte serialization of `n` into `k` bytes. -/
def toBytesBE (k n : Nat) : List Nat :=
  (List.range k).map (fun i => (n >>> (8 * (k - 1 - i))) % 256)

/-- Big-endian interpretation of a byte list as a natural number
(Python `int.from_bytes(b, 'big')`). -/
def fromBytesBE (b : List Nat) : Nat := b.foldl (fun a x => a * 256 + x) 0

/-- SHA-512 message padding: append `0x80`, zero bytes, and the 16-byte
big-endian bit length, reaching a multiple of 128 bytes. -/
def shaPad (msg : List Nat) : List Nat :=
  let zeros := (128 - (msg.length + 17) % 128) % 128
  msg ++ [0x80] ++ List.replicate zeros 0 ++ toBytesBE 16 (msg.length * 8)

/-- Group a byte list into big-endian 64-bit words, eight bytes at a time. -/
def bytesToWords : List Nat → List Nat
  | b0 :: b1 :: b2 :: b3 :: b4 :: b5 :: b6 :: b7 :: rest =>
      (((((((b0 * 256 + b1) * 256 + b2) * 256 + b3) * 256 + b4) * 256 + b5) * 256
        + b6) * 256 + b7) :: bytesToWords rest
  | _ => []

/-- One step of the SHA-512 message-schedule extension, on the reversed
schedule (most recent word first). -/
def schedStep (wrev : List Nat) : List Nat :=
  let x15 := wrev.getD 14 0
  let s0 := rotr64 x15 1 ^^^ rotr64 x15 8 ^^^ (x15 >>> 7)
  let x2 := wrev.getD 1 0
  let s1 := rotr64 x2 19 ^^^ rotr64 x2 61 ^^^ (x2 >>> 6)
  ((wrev.getD 15 0 + s0 + wrev.getD 6 0 + s1) % M64N) :: wrev

/-- Extend a 16-word block to the 80-word SHA-512 message schedule. -/
def schedule (block : List Nat) : List Nat :=
  (Nat.repeat schedStep 64 block.reverse).reverse

/-- Working registers of the SHA-512 compression function. -/
structure Sha2Regs where
  a : Nat
  b : Nat
  c : Nat
  d : Nat
  e : Nat
  f : Nat
  g : Nat
  h : Nat

/-- One round of the SHA-512 compression function. -/
def compressStep (r : Sha2Regs) (kw : Nat × Nat) : Sha2Regs :=
  let s1 := rotr64 r.e 14 ^^^ rotr64 r.e 18 ^^^ rotr64 r.e 41
  let ch := (r.e &&& r.f) ^^^ ((r.e ^^^ 0xffffffffffffffff) &&& r.g)
  let t1 := (r.h + s1 + ch + kw.1 + kw.2) % M64N
  let s0 := rotr64 r.a 28 ^^^ rotr64 r.a 34 ^^^ rotr64 r.a 39
  let mj := (r.a &&& r.b) ^^^ (r.a &&& r.c) ^^^ (r.b &&& r.c)
  let t2 := (s0 + mj) % M64N
  ⟨(t1 + t2) % M64N, r.a, r.b, r.c, (r.d + t1) % M64N, r.e, r.f, r.g⟩

/-- Compress the 512-bit chaining state with one 16-word block. -/
def compressBlock (hh : List Nat) (block : List Nat) : List Nat :=
  let r0 : Sha2Regs :=
    ⟨hh.getD 0 0, hh.getD 1 0, hh.getD 2 0, hh.getD 3 0,
     hh.getD 4 0, hh.getD 5 0, hh.getD 6 0, hh.getD 7 0⟩
  let r := (shaK.zip (schedule block)).foldl compressStep r0
  [(hh.getD 0 0 + r.a) % M64N, (hh.getD 1 0 + r.b) % M64N,
   (hh.getD 2 0 + r.c) % M64N, (hh.getD 3 0 + r.d) % M64N,
   (hh.getD 4 0 + r.e) % M64N, (hh.getD 5 0 + r.f) % M64N,
   (hh.getD 6 0 + r.g) % M64N, (hh.getD 7 0 + r.h) % M64N]

/-- Process padded message words block by block (fuel-bounded). -/
def processBlocks : Nat → List Nat → List Nat → List Nat
  | 0, hh, _ => hh
  | _, hh, [] => hh
  | fuel + 1, hh, ws =>
      processBlocks fuel (compressBlock hh (ws.take 16)) (ws.drop 16)

/-- SHA-512 digest (as a list of 64 bytes) of a byte-list message. -/
def sha512 (msg : List Nat) : List Nat :=
  let ws := bytesToWords (shaPad msg)
  ((processBlocks ws.length shaH0 ws).map (toBytesBE 8)).flatten

/-! ### Mersenne Twister (MT19937), as used by CPython `random.Random`

The 624-word `uint32` state array is embedded as a single natural number in
base `2^32`, word `i` occupying bits `32*i .. 32*i+31`; `getW` and `setW`
read and write one word. This packing keeps every loop iteration a small,
fixed chain of arithmetic operations. -/

/-- Read 32-bit word `i` of a packed state vector. -/
def getW (s i : Nat) : Nat := (s >>> (32 * i)) % M32N

/-- Write 32-bit word `i` of a packed state vector. -/
def setW (s i v : Nat) : Nat :=
  (s - (getW s i <<< (32 * i))) + ((v % M32N) <<< (32 * i))

/-- State of the Mersenne Twister: packed 624-word vector and output index. -/
structure MtState where
  mt : Nat
  idx : Nat

/-- Loop of MT19937 `init_genrand`: `mt[i] = 1812433253 * (mt[i-1] ^
(mt[i-1] >> 30)) + i` on `uint32`, for `i = 1 .. 623`. -/
def igLoop : Nat → Nat → Nat → Nat
  | 0, _, s => s
  | fuel + 1, i, s =>
      if s + 1 = 0 then 0 else
      let prev := getW s (i - 1)
      igLoop fuel (i + 1)
        (setW s i ((1812433253 * (prev ^^^ (prev >>> 30)) + i) % M32N))

/-- MT19937 `init_genrand`: seed the 624-word state vector from one word
(word 0 is the seed itself). -/
def initGenrand (s : Nat) : Nat := igLoop 623 1 (s % M32N)

/-- First mixing loop of MT19937 `init_by_array` (folds the seed key in);
`i` wraps from 624 back to 1 copying word 623 into word 0, `j` wraps at the
key length. -/
def ibaLoop1 (key : List Nat) : Nat → Nat → Nat → Nat → Nat
  | 0, _, _, s => s
  | fuel + 1, i, j, s =>
      if s + 1 = 0 then 0 else
      let prev := getW s (i - 1)
      let v := ((getW s i ^^^ ((prev ^^^ (prev >>> 30)) * 1664525 % M32N))
                + key.getD j 0 + j) % M32N
      let s := setW s i v
      let i' := i + 1
      let s := if i' ≥ 624 then setW s 0 (getW s 623) else s
      let i' := if i' ≥ 624 then 1 else i'
      let j' := j + 1
      let j' := if j' ≥ key.length then 0 else j'
      ibaLoop1 key fuel i' j' s

/-- Final value of the cursor `i` after `fuel` iterations of either
`init_by_array` loop starting from `i`: it wraps from 624 back to 1. -/
def ibaCursor : Nat → Nat → Nat
  | 0, i => i
  | fuel + 1, i => ibaCursor fuel (if i + 1 ≥ 624 then 1 else i + 1)

/-- Second mixing loop of MT19937 `init_by_array`; the C subtraction
`mt[i] - i` on `uint32` becomes addition of `2^32 - i` modulo `2^32`. -/
def ibaLoop2 : Nat → Nat → Nat → Nat
  | 0, _, s => s
  | fuel + 1, i, s =>
      if s + 1 = 0 then 0 else
      let prev := getW s (i - 1)
      let v := ((getW s i ^^^ ((prev ^^^ (prev >>> 30)) * 1566083941 % M32N))
                + (M32N - i % M32N)) % M32N
      let s := setW s i v
      let i' := i + 1
      let s := if i' ≥ 624 then setW s 0 (getW s 623) else s
      let i' := if i' ≥ 624 then 1 else i'
      ibaLoop2 fuel i' s

/-- MT19937 `init_by_array`: seed the state from a word array, finally
forcing word 0 to `0x80000000`. The cursor `i` runs on from the first loop
into the second. -/
def init_by_array (key : List Nat) : Nat :=
  let k := max 624 key.length
  let s1 := ibaLoop1 key k 1 0 (initGenrand 19650218)
  setW (ibaLoop2 623 (ibaCursor k 1) s1) 0 0x80000000

/-- Loop of the MT19937 state regeneration ("twist"), updating words in
place in increasing index order. -/
def twistLoop : Nat → Nat → Nat → Nat
  | 0, _, s => s
  | fuel + 1, i, s =>
      if s + 1 = 0 then 0 else
      let y := (getW s i &&& 0x80000000) ||| (getW s ((i + 1) % 624) &&& 0x7fffffff)
      let v0 := getW s ((i + 397) % 624) ^^^ (y >>> 1)
      let v := if y % 2 = 1 then v0 ^^^ 0x9908b0df else v0
      twistLoop fuel (i + 1) (setW s i v)

/-- Regenerate all 624 words of the MT19937 state. -/
def twist (mt : Nat) : Nat := twistLoop 624 0 mt

/-- MT19937 output tempering. -/
def temper (y0 : Nat) : Nat :=
  let y1 := y0 ^^^ (y0 >>> 11)
  let y2 := y1 ^^^ ((y1 <<< 7) &&& 0x9d2c5680)
  let y3 := y2 ^^^ ((y2 <<< 15) &&& 0xefc60000)
  (y3 ^^^ (y3 >>> 18)) % M32N

/-- Produce the next 32-bit MT19937 output and the successor state. -/
def genrand (s : MtState) : Nat × MtState :=
  let s := if s.idx ≥ 624 then MtState.mk (twist s.mt) 0 else s
  (temper (getW s.mt s.idx), ⟨s.mt, s.idx + 1⟩)

/-- Split a natural number into little-endian 32-bit words (fuel-bounded),
as CPython does when seeding from a long integer. -/
def toKey32 : Nat → Nat → List Nat
  | 0, _ => []
  | _, 0 => []
  | fuel + 1, n => (n % M32N) :: toKey32 fuel (n >>> 32)

/-- Byte list of an ASCII string (the inputs here are all ASCII, so this
agrees with Python UTF-8 encoding). -/
def strBytes (s : String) : List Nat := s.toList.map Char.toNat

/-- Word array CPython derives from a string seed (seed version 2): the
integer `int.from_bytes(b + sha512(b), 'big')` of the encoded bytes `b`,
split into little-endian 32-bit words. -/
def seedKey (s : String) : List Nat :=
  let b := strBytes s
  toKey32 (b.length + 17) (fromBytesBE (b ++ sha512 b))

/-- CPython `random.seed(a)` for a string `a`: feed `seedKey a` to
`init_by_array`; the fresh generator is due for a regeneration, hence
output index 624. -/
def mtFromString (s : String) : MtState :=
  ⟨init_by_array (seedKey s), 624⟩

/-- CPython `getrandbits(k)` for `k ≤ 32`: top `k` bits of one output word. -/
def getrandbits (k : Nat) (s : MtState) : Nat × MtState :=
  let (r, s) := genrand s
  (r >>> (32 - k), s)

/-- Number of bits of `n` (Python `int.bit_length`), by fuelled halving. -/
def bitLengthAux : Nat → Nat → Nat
  | 0, _ => 0
  | fuel + 1, n => if n = 0 then 0 else bitLengthAux fuel (n / 2) + 1

/-- Number of bits of `n` (Python `int.bit_length`). -/
def bitLength (n : Nat) : Nat := bitLengthAux (n + 1) n

/-- CPython `_randbelow(n)`: draw `bitLength n` bits, retrying while the
draw is ≥ `n`. Fuel-bounded; returns `none` only on fuel exhaustion. -/
def randbelowAux (n k : Nat) : Nat → MtState → Option Nat
  | 0, _ => none
  | fuel + 1, s =>
      let (r, s') := getrandbits k s
      if r < n then some r else randbelowAux n k fuel s'

/-- CPython `random.Random(seed).randrange(n)` with a string seed. -/
def randbelow (n : Nat) (s : MtState) : Option Nat :=
  randbelowAux n (bitLength n) 64 s

/-- Decimal digits of a natural number (fuel-bounded recursion). -/
def decimalAux : Nat → Nat → List Char
  | 0, _ => []
  | fuel + 1, n =>
      let d := Char.ofNat (48 + n % 10)
      if n < 10 then [d] else decimalAux fuel (n / 10) ++ [d]

/-- Decimal string of a natural number. -/
def decimalString (n : Nat) : String := String.mk (decimalAux (n + 1) n)

/-- Modelled from the spec: `phased_percentage` of `systemimage/helpers.py`
is not under `src/`; modelled as the deterministic pseudorandom reduction of
the tuple (machine_id, channel, target) to a percentage in [0,100) that is
pinned by `TestPhasedPercentage` — seed Python's Mersenne-Twister generator
with the string `channel + "." + str(target) + "." + machine_id` and draw
`randrange(100)`. -/
def phased_percentage (machine_id channel : String) (target : Nat) : Option Nat :=
  randbelow 100 (mtFromString (channel ++ "." ++ decimalString target ++ "." ++ machine_id))

/-! ### File checksumming (`calculate_signature`) -/

/-- Bytes per chunk read by `calculate_signature` (1 MiB). -/
def MiB : Nat := 1048576

/-- Fuelled recursion splitting a byte list into successive `MiB`-sized
chunks, as produced by repeated `fp.read(MiB)` calls until an empty read. -/
def readChunksAux : Nat → List Nat → List (List Nat)
  | 0, _ => []
  | _, [] => []
  | fuel + 1, content => content.take MiB :: readChunksAux fuel (content.drop MiB)

/-- The chunk sequence a reader observes for a file with these bytes. -/
def readChunks (content : List Nat) : List (List Nat) :=
  readChunksAux content.length content

/-- Modelled from the spec: `calculate_signature` of
`systemimage/helpers.py` is not under `src/`. A `hashlib` object is
modelled by the byte sequence fed to it so far — `update` appends, and
`hexdigest` is an arbitrary function `hashHex` of the accumulated bytes
(instantiable with SHA-256, the default, or MD5). The file is read and fed
to the hash object in MiB-sized chunks, per `TestSignature`. -/
def calculate_signature (hashHex : List Nat → String) (content : List Nat) : String :=
  hashHex ((readChunks content).foldl (fun acc chunk => acc ++ chunk) [])

/-! ### Index resolver and update-check result -/

/-- Image kind of an index entry: a full image installs from any build, a
delta applies only on top of its base build. -/
inductive ImageKind
  | full
  | delta (base : Nat)
deriving DecidableEq

/-- One file record of an image entry: relative path, size and checksum,
in the order published in the index. -/
structure ImageFile where
  path : String
  size : Nat
  checksum : String
deriving DecidableEq

/-- Modelled from the spec: one entry of the published version index
(§3 IndexEntry): target build number, kind, ordered file records, and the
locale-keyed description map (an association list in published order). -/
structure IndexEntry where
  build : Nat
  kind : ImageKind
  files : List ImageFile
  descriptions : List (String × String)
deriving DecidableEq

/-- Whether an entry can extend a path sitting at build `b`: full images
from anywhere, a delta only from its base build. -/
def follows (e : IndexEntry) (b : Nat) : Bool :=
  match e.kind with
  | .full => true
  | .delta base => base == b

/-- All strictly build-increasing candidate upgrade paths out of `cur`
(fuel-bounded; builds strictly increase along a path, so `index.length`
fuel is enough). Modelled from the spec (§4.2 resolver graph search). -/
def pathsAux (index : List IndexEntry) : Nat → Nat → List (List IndexEntry)
  | 0, _ => []
  | fuel + 1, cur =>
      (index.filter (fun e => follows e cur && Nat.blt cur e.build)).flatMap
        (fun e => [e] :: (pathsAux index fuel e.build).map (e :: ·))

/-- Candidate upgrade paths from `cur` through the published index. -/
def allPaths (index : List IndexEntry) (cur : Nat) : List (List IndexEntry) :=
  pathsAux index index.length cur

/-- Total download size of a path: sum of all file sizes along it. -/
def pathSize (p : List IndexEntry) : Nat :=
  (p.flatMap (·.files)).foldl (fun a f => a + f.size) 0

/-- Target build of a path (0 for the empty path). -/
def pathTarget (p : List IndexEntry) : Nat :=
  (p.getLast?).elim 0 (·.build)

/-- Number of delta hops chained in a path. -/
def pathDeltas (p : List IndexEntry) : Nat :=
  (p.filter (fun e => match e.kind with | .full => false | .delta _ => true)).length

/-- Strict preference between candidate paths (§4.2): higher target build
first, then smaller total size, then fewer hops, then fewer deltas. -/
def betterPath (p q : List IndexEntry) : Bool :=
  if pathTarget q < pathTarget p then true
  else if pathTarget p < pathTarget q then false
  else if pathSize p < pathSize q then true
  else if pathSize q < pathSize p then false
  else if p.length < q.length then true
  else if q.length < p.length then false
  else decide (pathDeltas p < pathDeltas q)

/-- Modelled from the spec: the resolver search (§4.2) — among candidate
paths whose target build passes the rollout gate, keep the best under
`betterPath`; the result `[]` means NoUpdateAvailable. The gate is an
arbitrary boolean predicate on the target build, covering every rollout
configuration. -/
def resolve (index : List IndexEntry) (current : Nat) (gate : Nat → Bool) :
    List IndexEntry :=
  let cands := (allPaths index current).filter (fun p => gate (pathTarget p))
  cands.foldl
    (fun best p => if best.isEmpty then p else if betterPath p best then p else best) []

/-- Modelled from the spec: the update-check result handed back by the
mediator: availability flag, target version string (empty when no update,
per `test_no_update_available_version`), total download size, and the
per-hop description maps in path order. -/
structure Update where
  is_available : Bool
  version : String
  size : Nat
  descriptions : List (List (String × String))
deriving DecidableEq

/-- Build the result object from the winning path. -/
def updateOf (winners : List IndexEntry) : Update :=
  { is_available := !winners.isEmpty
  , version := (winners.getLast?).elim "" (fun e => decimalString e.build)
  , size := pathSize winners
  , descriptions := winners.map (·.descriptions) }

/-- Modelled from the spec: `Mediator.check_for_update` — resolve the
winning path and package the result. -/
def check_for_update (index : List IndexEntry) (current : Nat)
    (gate : Nat → Bool) : Update :=
  updateOf (resolve index current gate)

/-! ### Command-script emitter -/

/-- One `load_keyring` directive line (signature file is `<archive>.asc`). -/
def loadKeyringLine (k : String) : String := "load_keyring " ++ k ++ " " ++ k ++ ".asc"

/-- One `update` directive line (signature file is `<file>.asc`). -/
def updateLine (f : String) : String := "update " ++ f ++ " " ++ f ++ ".asc"

/-- Modelled from the spec: the command-script emitter (§4.5, written by
the state machine into `ubuntu_command`): sequentially print one
keyring-load directive per changed keyring, a `format`/`mount` pair, one
`update` directive per artifact in path order with the file order within
each hop exactly as published, and a final `unmount`, one directive per
line. -/
def emit (keyrings : List String) (path : List IndexEntry) : String :=
  (path.foldl
      (fun acc e => e.files.foldl
        (fun acc2 f => acc2 ++ updateLine f.path ++ "\n") acc)
      ((keyrings.foldl (fun acc k => acc ++ loadKeyringLine k ++ "\n") "")
        ++ "format system\n" ++ "mount system\n"))
    ++ "unmount system\n"

/-- The directive list the emitted script must consist of, in order. -/
def directives (keyrings : List String) (path : List IndexEntry) : List String :=
  keyrings.map loadKeyringLine
    ++ ["format system", "mount system"]
    ++ (path.flatMap (fun e => e.files.map (fun f => updateLine f.path)))
    ++ ["unmount system"]

/-- Render a directive list one directive per line. -/
def renderScript : List String → String
  | [] => ""
  | d :: ds => d ++ "\n" ++ renderScript ds

/-- Example winning path mirroring the `index_13.json` fixture of
`TestAPI.test_download`: three hops whose files are published in the
order 6.txt, 7.txt, 5.txt. -/
def path13 : List IndexEntry :=
  [ ⟨1500, .full, [⟨"6.txt", 50, "c6"⟩], [("description", "Full A")]⟩
  , ⟨1501, .delta 1500, [⟨"7.txt", 50, "c7"⟩], [("description", "Delta A.1")]⟩
  , ⟨1600, .delta 1501, [⟨"5.txt", 50, "c5"⟩], [("description", "Delta A.2")]⟩ ]

/-- The keyring archives whose trust level changed along the path in
`test_download`, in load order. -/
def keyrings13 : List String :=
  ["image-master.tar.xz", "image-signing.tar.xz", "device-signing.tar.xz"]

/-- Full image hop of the `index_14.json` fixture (`test_get_details`). -/
def fullB : IndexEntry :=
  ⟨1400, .full, [⟨"b.txt", 100000, "cb"⟩],
   [("description", "Full B"), ("description-en", "The full B")]⟩

/-- First delta hop of the `index_14.json` fixture. -/
def deltaB1 : IndexEntry :=
  ⟨1500, .delta 1400, [⟨"b1.txt", 50000, "cb1"⟩],
   [("description", "Delta B.1"),
    ("description-en_US", "This is the delta B.1"),
    ("description-xx", "XX This is the delta B.1"),
    ("description-yy", "YY This is the delta B.1"),
    ("description-yy_ZZ", "YY-ZZ This is the delta B.1")]⟩

/-- Second delta hop of the `index_14.json` fixture; its description map
repeats locale keys of the first delta. -/
def deltaB2 : IndexEntry :=
  ⟨1600, .delta 1500, [⟨"b2.txt", 30009, "cb2"⟩],
   [("description", "Delta B.2"),
    ("description-xx", "Oh delta, my delta"),
    ("description-xx_CC", "This hyar is the delta B.2")]⟩

/-- Index holding the three-hop example path of `test_get_details`. -/
def index14 : List IndexEntry := [fullB, deltaB1, deltaB2]

/-! ### Download session: cancel semantics -/

/-- Overall status of an update session (§4.6). -/
inductive SessionStatus
  | checked
  | downloaded
  | canceled
deriving DecidableEq

/-- Failure outcome of a download (§7). -/
inductive DownloadError
  | canceledErr
  | signatureErr
deriving DecidableEq

/-- Modelled from the spec: one update session of the download
orchestrator: overall status, the entries published in the cache, and
not-yet-published temporary artifacts. -/
structure Session where
  status : SessionStatus
  cache : List String
  temps : List String
deriving DecidableEq

/-- Modelled from the spec: `cancel` aborts the session — discards all
partial on-disk artifacts, leaves published cache entries alone, and
marks the session terminally canceled. -/
def cancelSession (s : Session) : Session :=
  { s with status := .canceled, temps := [] }

/-- Modelled from the spec: `download` on a canceled session raises the
`Canceled` condition; otherwise it completes and publishes the session's
artifacts into the cache. -/
def downloadSession (s : Session) (artifacts : List String) :
    Except DownloadError Session :=
  match s.status with
  | .canceled => .error .canceledErr
  | _ => .ok { s with status := .downloaded, cache := s.cache ++ artifacts }

/-! ### Progress reporting -/

/-- Running totals after each received chunk. -/
def cumulative (acc : Nat) : List Nat → List Nat
  | [] => []
  | c :: rest => (acc + c) :: cumulative (acc + c) rest

/-- The two phases of an update session that could report progress. -/
inductive Phase
  | metadataCheck
  | bulkDownload
deriving DecidableEq

/-- Modelled from the spec: the aggregated progress reports of one session
phase — the metadata-only check phase invokes the callback never; the bulk
download phase reports `(bytes_received_total, bytes_expected_total)` once
per received chunk. -/
def phaseReports (ph : Phase) (chunks : List Nat) (expected : Nat) :
    List (Nat × Nat) :=
  match ph with
  | .metadataCheck => []
  | .bulkDownload => (cumulative 0 chunks).map (fun r => (r, expected))

/-! ### GPG trust context (`resolver/gpg.py`) -/

/-- World state visible to `Context`: the `GNUPGHOME` environment variable
and the existing temporary directories (by creation counter). -/
structure GpgWorld where
  gnupghome : Option String
  tempDirs : List Nat
  nextTemp : Nat
deriving DecidableEq

/-- The `Context` object of `resolver/gpg.py`: public-key path, optional
fixed home directory, the gpgme context slot (`_ctx`) and the slot holding
the result of the key import. -/
structure GpgContext where
  pubkey_path : String
  home : Option String
  ctx : Option Unit
  imported : Option Unit
deriving DecidableEq

/-- Name of the temporary keyring home directory with creation counter
`d` (`tempfile.mkdtemp(prefix='.otaupdate')`). -/
def tempName (d : Nat) : String := ".otaupdate" ++ decimalString d

/-- One registered `ExitStack` callback of `Context.__enter__`. -/
inductive GpgCallback
  | rmtreeTemp (d : Nat)
  | restoreEnvDelete
  | restoreEnvSet (old : String)
  | clearCtx
deriving DecidableEq

/-- Execute one callback against the world and the context object. -/
def runCallback : GpgCallback → GpgWorld × GpgContext → GpgWorld × GpgContext
  | .rmtreeTemp d, (w, c) => ({ w with tempDirs := w.tempDirs.erase d }, c)
  | .restoreEnvDelete, (w, c) => ({ w with gnupghome := none }, c)
  | .restoreEnvSet old, (w, c) => ({ w with gnupghome := some old }, c)
  | .clearCtx, (w, c) => (w, { c with ctx := none })

/-- Close an `ExitStack`: run callbacks last-registered (head) first. -/
def closeStack (stack : List GpgCallback) (wc : GpgWorld × GpgContext) :
    GpgWorld × GpgContext :=
  stack.foldl (fun acc cb => runCallback cb acc) wc

/-- Which fallible step of `Context.__enter__` raises, if any: creating
the temporary directory, constructing the gpgme context, opening the
public-key file, or the key import itself. -/
structure GpgFailures where
  mkdtempFails : Bool
  gpgmeFails : Bool
  openFails : Bool
  importFails : Bool
deriving DecidableEq

/-- The exception raised by a failing step of `Context.__enter__`. -/
inductive GpgError
  | mkdtempError
  | gpgmeError
  | openError
  | importError
deriving DecidableEq

/-- Steps of `Context.__enter__` after the home directory is settled:
save the old `GNUPGHOME` as a restore callback, point `GNUPGHOME` at the
home, construct the gpgme context (registering its clear callback), open
the public-key file and run the key import; on any raise, pop and close
the stack and propagate the error. -/
def gpgEnterSteps (fail : GpgFailures) (c : GpgContext) (w : GpgWorld)
    (stack0 : List GpgCallback) (home : String) :
    Except (GpgError × GpgWorld × GpgContext)
      (GpgWorld × GpgContext × List GpgCallback) :=
  let envCb := match w.gnupghome with
    | none => GpgCallback.restoreEnvDelete
    | some old => GpgCallback.restoreEnvSet old
  let stack := envCb :: stack0
  let w := { w with gnupghome := some home }
  if fail.gpgmeFails then
    let (w', c') := closeStack stack (w, c)
    .error (.gpgmeError, w', c')
  else
    let c := { c with ctx := some () }
    let stack := GpgCallback.clearCtx :: stack
    if fail.openFails then
      let (w', c') := closeStack stack (w, c)
      .error (.openError, w', c')
    else if fail.importFails then
      let (w', c') := closeStack stack (w, c)
      .error (.importError, w', c')
    else
      .ok (w, { c with imported := some () }, stack)

/-- Embedding of `Context.__enter__` (`resolver/gpg.py` lines 46-77):
when no home was supplied create a temporary keyring home (registering its
deletion callback), then run the remaining steps; an error raised before
the temporary directory exists leaves nothing to clean up. -/
def gpgEnter (fail : GpgFailures) (c : GpgContext) (w : GpgWorld) :
    Except (GpgError × GpgWorld × GpgContext)
      (GpgWorld × GpgContext × List GpgCallback) :=
  match c.home with
  | none =>
      if fail.mkdtempFails then
        .error (.mkdtempError, w, c)
      else
        let d := w.nextTemp
        let w' : GpgWorld :=
          { w with tempDirs := d :: w.tempDirs, nextTemp := w.nextTemp + 1 }
        gpgEnterSteps fail c w' [GpgCallback.rmtreeTemp d] (tempName d)
  | some h => gpgEnterSteps fail c w [] h

/-- Embedding of `Context.__exit__` (`resolver/gpg.py` lines 79-82):
pop and close the whole stack; the returned `false` means an exception
from the with-body is never swallowed. -/
def gpgExit (stack : List GpgCallback) (w : GpgWorld) (c : GpgContext) :
    (GpgWorld × GpgContext) × Bool :=
  (closeStack stack (w, c), false)

/-! ### Public key fetching (`get_pubkey` of `resolver/gpg.py`) -/

/-- One entry of the resolver cache: key, filesystem path, expiry time. -/
structure CacheEntry where
  key : String
  path : String
  expiry : Nat
deriving DecidableEq

/-- World state visible to `get_pubkey`: cache entries, fully published
files (path ↦ content), the URLs downloaded so far, and the current time
in seconds. -/
structure PkWorld where
  entries : List CacheEntry
  files : List (String × String)
  downloads : List String
  now : Nat
deriving DecidableEq

/-- Configuration slice used by `get_pubkey`: service base URL (ending in
a slash) and the cache directory. -/
structure PkConfig where
  base : String
  cacheDir : String
deriving DecidableEq

/-- Modelled from the spec: `Cache.get_path` of the excluded cache
collaborator — the cached filesystem path for a key, if present. -/
def cacheGetPath (entries : List CacheEntry) (key : String) : Option String :=
  (entries.find? (fun e => e.key == key)).map (·.path)

/-- Modelled from the spec: `Cache.update` of the excluded cache
collaborator — record (or replace) the path and expiry for a key. -/
def cacheUpdate (entries : List CacheEntry) (key path : String) (when : Nat) :
    List CacheEntry :=
  ⟨key, path, when⟩ :: entries.filter (fun e => e.key != key)

/-- Recorded expiry time for a cache key, if present. -/
def cacheGetExpiry (entries : List CacheEntry) (key : String) : Option Nat :=
  (entries.find? (fun e => e.key == key)).map (·.expiry)

/-- Seconds in 365 × 10 days (`timedelta(days=365*10)`). -/
def tenYears : Nat := 3600 * 24 * (365 * 10)

/-- Embedding of `get_pubkey` (`resolver/gpg.py` lines 90-111): return the
cached path for `phablet.pubkey.asc` when present; otherwise download the
key from the configured base URL (the downloaded body is the `network`
parameter), atomically publish it into the cache directory, record an
expiry of now plus ten years, and return the new path. `urljoin` and
`os.path.join` are string concatenation here. -/
def get_pubkey (cfg : PkConfig) (network : String) (w : PkWorld) :
    String × PkWorld :=
  match cacheGetPath w.entries "phablet.pubkey.asc" with
  | some p => (p, w)
  | none =>
      let url := cfg.base ++ "phablet.pubkey.asc"
      let path := cfg.cacheDir ++ "/phablet.pubkey.asc"
      let when := w.now + tenYears
      (path,
       { w with
           downloads := w.downloads ++ [url]
           , files := (path, network) :: w.files
           , entries := cacheUpdate w.entries "phablet.pubkey.asc" path when })

/-! ## Theorems -/

/-- Folding list append over chunks equals appending their concatenation. -/
theorem foldl_append_eq_flatten (l : List (List Nat)) :
    ∀ acc : List Nat, l.foldl (fun a c => a ++ c) acc = acc ++ l.flatten := by
  induction l with
  | nil => intro acc; simp
  | cons x xs ih => intro acc; simp [ih, List.append_assoc]

/-- With enough fuel, the chunks concatenate back to the content. -/
theorem readChunksAux_flatten :
    ∀ fuel content, List.length content ≤ fuel →
      (readChunksAux fuel content).flatten = content := by
  intro fuel
  induction fuel with
  | zero =>
      intro content h
      rw [List.length_eq_zero.mp (Nat.le_zero.mp h)]
      rfl
  | succ n ih =>
      intro content h
      cases content with
      | nil => rfl
      | cons c cs =>
          show ((c :: cs).take MiB :: readChunksAux n ((c :: cs).drop MiB)).flatten
              = c :: cs
          rw [List.flatten_cons, ih ((c :: cs).drop MiB) ?_, List.take_append_drop]
          rw [List.length_drop]
          have hm : 1 ≤ MiB := by decide
          simp only [List.length_cons] at h ⊢
          omega

/-- C10: for every file content and every hash function (sha256 default or
md5 alternative), `calculate_signature`, which reads the file in MiB-sized
chunks, returns the digest of hashing the entire content in a single pass;
the one-chunk boundary and the beyond-one-chunk cases are instances of the
universally quantified content. -/
theorem calculate_signature_eq_single_pass
    (hashHex : List Nat → String) (content : List Nat) :
    calculate_signature hashHex content = hashHex content := by
  unfold calculate_signature readChunks
  rw [foldl_append_eq_flatten, List.nil_append,
    readChunksAux_flatten content.length content (Nat.le_refl _)]

/-- C4: for every session, canceling it makes a subsequent download raise
the Canceled condition rather than return data, leaves no partial
artifacts behind, and does not disturb the already-published cache. -/
theorem cancel_then_download_raises_canceled (s : Session) (artifacts : List String) :
    downloadSession (cancelSession s) artifacts = .error .canceledErr
    ∧ (cancelSession s).temps = []
    ∧ (cancelSession s).cache = s.cache :=
  ⟨rfl, rfl, rfl⟩

/-- Every running total is at least the starting accumulator. -/
theorem cumulative_ge :
    ∀ (l : List Nat) (acc x : Nat), x ∈ cumulative acc l → acc ≤ x := by
  intro l
  induction l with
  | nil => intro acc x hx; cases hx
  | cons c rest ih =>
      intro acc x hx
      rcases List.mem_cons.mp hx with h | h
      · omega
      · exact le_trans (Nat.le_add_right acc c) (ih (acc + c) x h)

/-- Running totals are pairwise monotone. -/
theorem cumulative_pairwise :
    ∀ (l : List Nat) (acc : Nat),
      List.Pairwise (· ≤ ·) (cumulative acc l) := by
  intro l
  induction l with
  | nil => intro acc; exact List.Pairwise.nil
  | cons c rest ih =>
      intro acc
      exact List.Pairwise.cons (fun x hx => cumulative_ge rest (acc + c) x hx) (ih (acc + c))

/-- C7: for every session, the progress callback is never invoked during a
pure metadata check, and across the bulk download phase the reported
aggregate received total never drops below a previously reported total. -/
theorem progress_reports_monotone_and_silent_check
    (chunks : List Nat) (expected : Nat) :
    phaseReports .metadataCheck chunks expected = []
    ∧ List.Pairwise (fun a b : Nat × Nat => a.1 ≤ b.1)
        (phaseReports .bulkDownload chunks expected) := by
  refine ⟨rfl, ?_⟩
  unfold phaseReports
  exact (List.pairwise_map).mpr
    ((cumulative_pairwise chunks 0).imp (fun h => h))

/-- If no index entry exceeds the current build, no candidate path exists. -/
theorem allPaths_eq_nil (index : List IndexEntry) (current : Nat)
    (h : ∀ e ∈ index, e.build ≤ current) : allPaths index current = [] := by
  unfold allPaths
  cases hl : index.length with
  | zero => rfl
  | succ n =>
      show (index.filter
          (fun e => follows e current && Nat.blt current e.build)).flatMap _ = []
      have hfil : index.filter
          (fun e => follows e current && Nat.blt current e.build) = [] := by
        apply List.filter_eq_nil_iff.mpr
        intro e he
        simp only [Bool.and_eq_true, Nat.blt_eq, not_and]
        intro _
        exact Nat.not_lt.mpr (h e he)
      rw [hfil]
      rfl

/-- With no candidate paths, the resolver reports no winning path. -/
theorem resolve_eq_nil (index : List IndexEntry) (current : Nat)
    (gate : Nat → Bool) (h : ∀ e ∈ index, e.build ≤ current) :
    resolve index current gate = [] := by
  unfold resolve
  rw [allPaths_eq_nil index current h]
  rfl

/-- C2: for every index and every rollout configuration, if the current
build equals or exceeds every published build (in particular the latest),
the update check reports no update available. -/
theorem no_update_when_current_at_or_beyond_latest
    (index : List IndexEntry) (current : Nat) (gate : Nat → Bool)
    (h : ∀ e ∈ index, e.build ≤ current) :
    (check_for_update index current gate).is_available = false := by
  unfold check_for_update
  rw [resolve_eq_nil index current gate h]
  rfl

/-- Witness for C2: a concrete one-entry index at build 1600, checked both
at the same build and beyond it, under a fully open rollout gate. -/
theorem no_update_when_current_at_or_beyond_latest_witness :
    (check_for_update [⟨1600, .full, [], []⟩] 1600 (fun _ => true)).is_available = false
    ∧ (check_for_update [⟨1600, .full, [], []⟩] 1700 (fun _ => true)).is_available = false :=
  ⟨no_update_when_current_at_or_beyond_latest _ 1600 _ (by decide),
   no_update_when_current_at_or_beyond_latest _ 1700 _ (by decide)⟩

/-- C9: when no update is available because the current build is at or
beyond the latest published build, the returned update object carries
`is_available = false` and the empty string as its version, not a numeric
zero or a missing field. -/
theorem version_empty_when_no_update
    (index : List IndexEntry) (current : Nat) (gate : Nat → Bool)
    (h : ∀ e ∈ index, e.build ≤ current) :
    (check_for_update index current gate).version = ""
    ∧ (check_for_update index current gate).is_available = false := by
  unfold check_for_update
  rw [resolve_eq_nil index current gate h]
  exact ⟨rfl, rfl⟩

/-- Witness for C9: the concrete fixture situation of
`test_no_update_available_version` (latest build 1600, current 1600). -/
theorem version_empty_when_no_update_witness :
    (check_for_update [⟨1600, .full, [⟨"5.txt", 50, "c5"⟩], []⟩] 1600
        (fun _ => true)).version = ""
    ∧ (check_for_update [⟨1600, .full, [⟨"5.txt", 50, "c5"⟩], []⟩] 1600
        (fun _ => true)).is_available = false :=
  version_empty_when_no_update _ 1600 _ (by decide)

/-- C6: the human-readable descriptions of a resolved path are the ordered
concatenation of each hop's description map, one map per hop with locale
keys preserved and never merged across hops; on the three-hop example path
of `test_get_details` the result is exactly the three separate maps. -/
theorem descriptions_are_per_hop_maps_in_path_order :
    (∀ winners : List IndexEntry,
        (updateOf winners).descriptions = winners.map (fun e => e.descriptions))
    ∧ (check_for_update index14 1300 (fun _ => true)).descriptions
        = [fullB.descriptions, deltaB1.descriptions, deltaB2.descriptions]
    ∧ ((check_for_update index14 1300 (fun _ => true)).descriptions).length = 3 := by
  refine ⟨fun winners => rfl, ?_, ?_⟩ <;> decide

/-- Rendering distributes over list concatenation. -/
theorem renderScript_append (a b : List String) :
    renderScript (a ++ b) = renderScript a ++ renderScript b := by
  induction a with
  | nil => simp [renderScript]
  | cons d ds ih => simp [renderScript, ih, String.append_assoc]

/-- Sequentially printing one line per element equals rendering the mapped
directive list after the accumulator. -/
theorem foldl_lines {α : Type} (f : α → String) (l : List α) :
    ∀ acc : String,
      l.foldl (fun a x => a ++ f x ++ "\n") acc = acc ++ renderScript (l.map f) := by
  induction l with
  | nil => intro acc; simp [renderScript]
  | cons x xs ih =>
      intro acc
      rw [List.foldl_cons, ih (acc ++ f x ++ "\n")]
      simp only [List.map_cons, renderScript]
      simp [String.append_assoc]

/-- Sequentially printing the update lines of every hop equals rendering
the flattened per-hop file directives after the accumulator. -/
theorem foldl_update_lines (p : List IndexEntry) :
    ∀ acc : String,
      p.foldl (fun acc e => e.files.foldl
          (fun a2 f => a2 ++ updateLine f.path ++ "\n") acc) acc
        = acc ++ renderScript
            (p.flatMap (fun e => e.files.map (fun f => updateLine f.path))) := by
  induction p with
  | nil => intro acc; simp [renderScript]
  | cons e es ih =>
      intro acc
      simp only [List.foldl_cons, List.flatMap_cons]
      rw [foldl_lines (fun f => updateLine f.path) e.files acc, ih,
        renderScript_append, String.append_assoc]

/-- The emitted script is exactly the rendered directive list. -/
theorem emit_eq_renderScript (ks : List String) (p : List IndexEntry) :
    emit ks p = renderScript (directives ks p) := by
  unfold emit directives
  rw [foldl_lines loadKeyringLine ks "", foldl_update_lines p,
    renderScript_append, renderScript_append, renderScript_append]
  simp [renderScript, String.append_assoc]

set_option maxRecDepth 100000 in
/-- C3: for every resolved path the emitted command script consists, in
exactly this fixed order, of one `load_keyring` directive per changed
keyring, then `format`, then `mount`, then one `update <file> <file>.asc`
directive per artifact in path order with per-hop file order preserved,
then `unmount`; and on the `test_download` fixture it equals the exact
published bytes. Byte-stability across runs is the purity of `emit`. -/
theorem command_script_directive_order :
    (∀ (keyrings : List String) (path : List IndexEntry),
        emit keyrings path = renderScript (directives keyrings path))
    ∧ emit keyrings13 path13
        = "load_keyring image-master.tar.xz image-master.tar.xz.asc\nload_keyring image-signing.tar.xz image-signing.tar.xz.asc\nload_keyring device-signing.tar.xz device-signing.tar.xz.asc\nformat system\nmount system\nupdate 6.txt 6.txt.asc\nupdate 7.txt 7.txt.asc\nupdate 5.txt 5.txt.asc\nunmount system\n" := by
  refine ⟨emit_eq_renderScript, ?_⟩
  decide

/-- C5: for every use of the trust `Context` as a context manager — any
supplied or absent home directory, any prior `GNUPGHOME` value, and any
combination of failures raised mid-import during entry — all scoped
resources are released on every exit path: the temporary keyring home (when
one was created) is deleted, `GNUPGHOME` is restored to its pre-entry value
(removed if previously unset), the gpgme context slot is cleared, and the
error is propagated (`Except.error` on entry failure; `__exit__` returns
`false`, never swallowing a with-body exception). -/
theorem gpg_context_releases_all_resources
    (fail : GpgFailures) (pub : String) (home : Option String) (w : GpgWorld) :
    (match gpgEnter fail ⟨pub, home, none, none⟩ w with
     | .error (_, w', c') =>
         w'.gnupghome = w.gnupghome ∧ w'.tempDirs = w.tempDirs ∧ c'.ctx = none
     | .ok (w1, c1, stack) =>
         (gpgExit stack w1 c1).1.1.gnupghome = w.gnupghome
         ∧ (gpgExit stack w1 c1).1.1.tempDirs = w.tempDirs
         ∧ (gpgExit stack w1 c1).1.2.ctx = none
         ∧ (gpgExit stack w1 c1).2 = false) := by
  rcases fail with ⟨mk, gp, op, im⟩
  rcases home with _ | h <;> cases mk <;> cases gp <;> cases op <;> cases im <;>
    rcases hw : w.gnupghome with _ | old <;>
      simp [gpgEnter, gpgEnterSteps, gpgExit, closeStack, runCallback, hw,
        List.erase_cons_head]

/-- C8: `get_pubkey` returns the cached path untouched (performing no
download) when `phablet.pubkey.asc` is cached; on a cache miss it downloads
the key from the configured base URL exactly once, publishes the full body
into the cache directory, records an expiry of now plus ten years
(365 × 10 days), and returns the new path. -/
theorem get_pubkey_cache_contract
    (cfg : PkConfig) (network : String) (w : PkWorld) :
    (∀ p, cacheGetPath w.entries "phablet.pubkey.asc" = some p →
        get_pubkey cfg network w = (p, w))
    ∧ (cacheGetPath w.entries "phablet.pubkey.asc" = none →
        (get_pubkey cfg network w).1 = cfg.cacheDir ++ "/phablet.pubkey.asc"
        ∧ (get_pubkey cfg network w).2.downloads
            = w.downloads ++ [cfg.base ++ "phablet.pubkey.asc"]
        ∧ (get_pubkey cfg network w).2.files
            = (cfg.cacheDir ++ "/phablet.pubkey.asc", network) :: w.files
        ∧ cacheGetPath (get_pubkey cfg network w).2.entries "phablet.pubkey.asc"
            = some (cfg.cacheDir ++ "/phablet.pubkey.asc")
        ∧ cacheGetExpiry (get_pubkey cfg network w).2.entries "phablet.pubkey.asc"
            = some (w.now + tenYears)) := by
  constructor
  · intro p hp
    unfold get_pubkey
    rw [hp]
  · intro hn
    unfold get_pubkey
    rw [hn]
    refine ⟨rfl, rfl, rfl, ?_, ?_⟩ <;>
      simp [cacheGetPath, cacheGetExpiry, cacheUpdate, List.find?]

/-- Witness for C8: a concrete cache-hit world returns the cached path
unchanged, and a concrete empty-cache world downloads once, publishes,
records the ten-year expiry and returns the new path. -/
theorem get_pubkey_cache_contract_witness :
    get_pubkey ⟨"http://base/", "/cache"⟩ "KEYBODY"
        ⟨[⟨"phablet.pubkey.asc", "/cache/phablet.pubkey.asc", 7⟩], [], [], 50⟩
      = ("/cache/phablet.pubkey.asc",
         ⟨[⟨"phablet.pubkey.asc", "/cache/phablet.pubkey.asc", 7⟩], [], [], 50⟩)
    ∧ ((get_pubkey ⟨"http://base/", "/cache"⟩ "KEYBODY" ⟨[], [], [], 50⟩).1
          = "/cache/phablet.pubkey.asc"
        ∧ (get_pubkey ⟨"http://base/", "/cache"⟩ "KEYBODY" ⟨[], [], [], 50⟩).2.downloads
          = [] ++ ["http://base/phablet.pubkey.asc"]
        ∧ (get_pubkey ⟨"http://base/", "/cache"⟩ "KEYBODY" ⟨[], [], [], 50⟩).2.files
          = ("/cache/phablet.pubkey.asc", "KEYBODY") :: []
        ∧ cacheGetPath (get_pubkey ⟨"http://base/", "/cache"⟩ "KEYBODY"
              ⟨[], [], [], 50⟩).2.entries "phablet.pubkey.asc"
          = some "/cache/phablet.pubkey.asc"
        ∧ cacheGetExpiry (get_pubkey ⟨"http://base/", "/cache"⟩ "KEYBODY"
              ⟨[], [], [], 50⟩).2.entries "phablet.pubkey.asc"
          = some (50 + tenYears)) := by
  constructor
  · exact (get_pubkey_cache_contract ⟨"http://base/", "/cache"⟩ "KEYBODY"
      ⟨[⟨"phablet.pubkey.asc", "/cache/phablet.pubkey.asc", 7⟩], [], [], 50⟩).1
      "/cache/phablet.pubkey.asc" (by decide)
  · have h := (get_pubkey_cache_contract ⟨"http://base/", "/cache"⟩ "KEYBODY"
      ⟨[], [], [], 50⟩).2 (by decide)
    exact h

set_option maxRecDepth 1000000 in
/-- C1: the phased-rollout percentage is deterministic — identical inputs
always produce the identical percentage — and on the pinned inputs of
`TestPhasedPercentage` it yields exactly 51, 25, 96 and 1: machine_id
`0123456789abcdef` / channel `ubuntu` / target 11 ↦ 51; machine_id
`fedcba9876543210` (same channel/target) ↦ 25; channel `devel` (same
machine/target) ↦ 96; target 12 (same machine/channel) ↦ 1. -/
theorem phased_percentage_deterministic_and_pinned :
    (∀ (machine_id channel : String) (target : Nat),
        phased_percentage machine_id channel target
          = phased_percentage machine_id channel target)
    ∧ phased_percentage "0123456789abcdef" "ubuntu" 11 = some 51
    ∧ phased_percentage "fedcba9876543210" "ubuntu" 11 = some 25
    ∧ phased_percentage "0123456789abcdef" "devel" 11 = some 96
    ∧ phased_percentage "0123456789abcdef" "ubuntu" 12 = some 1 :=
  ⟨fun _ _ _ => rfl, by decide, by decide, by decide, by decide⟩

end SystemImage
